import Mathlib

/-!
Verification of the transcription runner in `scripts/transcribe.py`.

The script is embedded shallowly: the external faster-whisper engine is an
abstract collaborator (model load and transcription, both fallible), the
environment and the filesystem are abstract maps, and the functions below
mirror the source line by line.  `transcribe` additionally records, in order,
the calls it makes to the engine, so that configuration and temporal
properties can be stated.
-/

namespace Clawdify

/-- Whitespace test of Python `str.strip` (the characters the method removes
from the ends of an ASCII string). -/
def isPySpace (c : Char) : Bool :=
  c = ' ' || c = '\t' || c = '\n' || c = '\r' || c = '\x0b' || c = '\x0c'

/-- Python `str.strip()`: drop leading and trailing whitespace characters. -/
def pyStrip (s : String) : String :=
  String.mk (((s.data.dropWhile isPySpace).reverse.dropWhile isPySpace).reverse)

/-- Python `" ".join(parts)`: the parts in order, a single space between
consecutive parts. -/
def joinSpace : List String → String
  | [] => ""
  | [p] => p
  | p :: ps => p ++ " " ++ joinSpace ps

/-- A transcription segment yielded by the engine: the recognized text.
(The timing metadata of a segment is never consumed by the script.) -/
structure Segment where
  text : String
deriving Repr, DecidableEq

/-- One observable request made to the external faster-whisper engine. -/
inductive EngineCall where
  | loadModel (model_size device compute_type : String)
  | transcribeAudio (audio_path : String) (beam_size : Nat)
deriving Repr, DecidableEq

/-- The external faster-whisper engine, an opaque collaborator:
`WhisperModel(model_size, device, compute_type)` either raises or returns a
model handle of type `μ`, and `model.transcribe(audio_path, beam_size)` either
raises or returns the segment sequence together with metadata of type `ι`
(language, duration).  Errors are values of type `ε`. -/
structure Engine (ε μ ι : Type) where
  loadModel : String → String → String → Except ε μ
  transcribeAudio : μ → String → Nat → Except ε (List Segment × ι)

/-- Lines 11-24 of the script, `transcribe(audio_path)`: read the model size
from the environment variable WHISPER_MODEL (default "small"), instantiate
`WhisperModel(model_size, device="cpu", compute_type="int8")`, call
`model.transcribe(audio_path, beam_size=5)`, strip each segment text and
join the parts with single spaces.  The first component is the returned
string, or the uncaught engine error; the second component is the ordered
list of engine calls that were made. -/
def transcribe {ε μ ι : Type} (eng : Engine ε μ ι) (env : String → Option String)
    (audio_path : String) : Except ε String × List EngineCall :=
  let model_size := (env "WHISPER_MODEL").getD "small"
  match eng.loadModel model_size "cpu" "int8" with
  | .error e => (.error e, [.loadModel model_size "cpu" "int8"])
  | .ok model =>
    match eng.transcribeAudio model audio_path 5 with
    | .error e =>
        (.error e, [.loadModel model_size "cpu" "int8",
                    .transcribeAudio audio_path 5])
    | .ok (segments, _info) =>
        (.ok (joinSpace (segments.map (fun s => pyStrip s.text))),
         [.loadModel model_size "cpu" "int8",
          .transcribeAudio audio_path 5])

/-- A filesystem entry: a regular file or a directory. -/
inductive FsEntry where
  | file
  | directory
deriving Repr, DecidableEq

/-- `os.path.exists`: true exactly when the path names an existing entry,
whether file or directory. -/
def osPathExists (fs : String → Option FsEntry) (p : String) : Bool :=
  (fs p).isSome

/-- How the process ends: a normal exit with a code, or termination by an
uncaught exception from the engine. -/
inductive MainOutcome (ε : Type) where
  | exited (code : Nat)
  | uncaught (err : ε)
deriving Repr, DecidableEq

/-- The observable behavior of one program run: outcome, the lines printed to
stdout and to stderr, and the engine calls made. -/
structure MainResult (ε : Type) where
  outcome : MainOutcome ε
  stdoutLines : List String
  stderrLines : List String
  engineCalls : List EngineCall
deriving Repr, DecidableEq

/-- Lines 26-37 of the script, the `__main__` block.  `argv` models
`sys.argv`, so `argv[0]` is the script name and the CLI arguments follow.
Fewer than two entries: print the usage line to stderr and exit 1.  A first
argument naming no existing path: print "File not found: " and the path to
stderr and exit 1.  Otherwise transcribe `argv[1]` and print the result to
stdout, an engine exception escaping uncaught. -/
def mainEntry {ε μ ι : Type} (eng : Engine ε μ ι) (env : String → Option String)
    (fs : String → Option FsEntry) : List String → MainResult ε
  | _prog :: audio_file :: _rest =>
    if osPathExists fs audio_file then
      match transcribe eng env audio_file with
      | (.ok result, calls) => ⟨.exited 0, [result], [], calls⟩
      | (.error e, calls) => ⟨.uncaught e, [], [], calls⟩
    else
      ⟨.exited 1, [], ["File not found: " ++ audio_file], []⟩
  | _ =>
      ⟨.exited 1, [], ["Usage: transcribe.py <audio_file>"], []⟩

/-- An engine that loads successfully and answers every transcription request
with the fixed segment list `segs`. -/
def constEngine (segs : List Segment) : Engine String Unit Unit where
  loadModel := fun _ _ _ => .ok ()
  transcribeAudio := fun _ _ _ => .ok (segs, ())

/-- An engine whose model load fails with the message `msg`. -/
def failingEngine (msg : String) : Engine String Unit Unit where
  loadModel := fun _ _ _ => .error msg
  transcribeAudio := fun _ _ _ => .error msg

/-- An environment with no variables set. -/
def emptyEnv : String → Option String := fun _ => none

/-- A filesystem with no entries. -/
def noFs : String → Option FsEntry := fun _ => none

/-- A filesystem whose only entry is a directory at `p`. -/
def dirAt (p : String) : String → Option FsEntry :=
  fun q => if q = p then some .directory else none

/-- Helper: the value `transcribe` returns when both engine steps succeed. -/
theorem transcribe_fst_of_ok {ε μ ι : Type} (eng : Engine ε μ ι)
    (env : String → Option String) (audio_path : String) (m : μ)
    (segs : List Segment) (info : ι)
    (hload : eng.loadModel ((env "WHISPER_MODEL").getD "small") "cpu" "int8"
      = .ok m)
    (hrun : eng.transcribeAudio m audio_path 5 = .ok (segs, info)) :
    (transcribe eng env audio_path).1
      = .ok (joinSpace (segs.map (fun s => pyStrip s.text))) := by
  simp only [transcribe]
  rw [hload]
  dsimp only
  rw [hrun]

/-- Helper: the engine-call trace of `transcribe` is the model-load request
followed, when the load succeeded, by the transcription request. -/
theorem transcribe_calls_eq {ε μ ι : Type} (eng : Engine ε μ ι)
    (env : String → Option String) (audio_path : String) :
    (transcribe eng env audio_path).2
      = .loadModel ((env "WHISPER_MODEL").getD "small") "cpu" "int8" ::
        (match eng.loadModel ((env "WHISPER_MODEL").getD "small") "cpu" "int8"
          with
         | .error _ => []
         | .ok _ => [.transcribeAudio audio_path 5]) := by
  simp only [transcribe]
  cases hL : eng.loadModel ((env "WHISPER_MODEL").getD "small") "cpu" "int8"
    with
  | error e => rfl
  | ok mdl =>
      dsimp only
      cases hT : eng.transcribeAudio mdl audio_path 5 with
      | error e => rfl
      | ok v =>
          cases v
          rfl

/-- Helper: a space-join of at least two parts has positive length. -/
theorem joinSpace_two_pos (p q : String) (ps : List String) :
    0 < (joinSpace (p :: q :: ps)).length := by
  have h : joinSpace (p :: q :: ps) = p ++ " " ++ joinSpace (q :: ps) := rfl
  rw [h, String.length_append, String.length_append]
  have hs : " ".length = 1 := rfl
  omega

/-- Helper: a space-join is empty only for the empty part list or a single
empty part. -/
theorem joinSpace_eq_empty {ps : List String} (h : joinSpace ps = "") :
    ps = [] ∨ ps = [""] := by
  match ps with
  | [] => exact Or.inl rfl
  | [p] =>
      refine Or.inr ?_
      have hp : joinSpace [p] = p := rfl
      rw [hp] at h
      rw [h]
  | p :: q :: ps' =>
      exfalso
      have hpos := joinSpace_two_pos p q ps'
      rw [h] at hpos
      simp at hpos

/-- Helper: `joinSpace` introduces no character besides spaces and the
characters of the parts. -/
theorem joinSpace_no_char (c : Char) (hc : c ≠ ' ') :
    ∀ ps : List String, (∀ x ∈ ps, c ∉ x.data) → c ∉ (joinSpace ps).data := by
  intro ps
  induction ps with
  | nil =>
      intro _ hmem
      exact absurd hmem (List.not_mem_nil c)
  | cons p ps ih =>
      intro hall
      cases ps with
      | nil => exact hall p (List.mem_cons_self p [])
      | cons q ps' =>
          have hj : joinSpace (p :: q :: ps')
              = p ++ " " ++ joinSpace (q :: ps') := rfl
          rw [hj]
          intro hmem
          rw [String.data_append, String.data_append] at hmem
          rcases List.mem_append.mp hmem with hmem1 | hmem3
          · rcases List.mem_append.mp hmem1 with hp | hsp
            · exact hall p (List.mem_cons_self p (q :: ps')) hp
            · exact hc (by simpa using hsp)
          · refine ih ?_ hmem3
            intro x hx
            exact hall x (List.mem_cons_of_mem p hx)

/-- Helper: when the checked path exists, the run prints nothing to stderr
and its engine calls are exactly those recorded by `transcribe`. -/
theorem mainEntry_exists_branch {ε μ ι : Type} (eng : Engine ε μ ι)
    (env : String → Option String) (fs : String → Option FsEntry)
    (prog p : String) (rest : List String)
    (hex : (fs p).isSome = true) :
    (mainEntry eng env fs (prog :: p :: rest)).stderrLines = []
    ∧ (mainEntry eng env fs (prog :: p :: rest)).engineCalls
        = (transcribe eng env p).2 := by
  have hmain : mainEntry eng env fs (prog :: p :: rest)
      = match transcribe eng env p with
        | (.ok result, calls) => ⟨.exited 0, [result], [], calls⟩
        | (.error e, calls) => ⟨.uncaught e, [], [], calls⟩ := by
    simp [mainEntry, osPathExists, hex]
  rw [hmain]
  cases htr : transcribe eng env p with
  | mk res calls =>
      cases res with
      | ok r => exact ⟨rfl, rfl⟩
      | error e => exact ⟨rfl, rfl⟩

/-- Claim C1: whenever the engine succeeds and yields segments `segs`,
`transcribe` returns exactly the texts of the segments, each stripped of
surrounding whitespace, joined in the same order with single spaces. -/
theorem C1_transcribe_joins_stripped {ε μ ι : Type} (eng : Engine ε μ ι)
    (env : String → Option String) (audio_path : String) (m : μ)
    (segs : List Segment) (info : ι)
    (hload : eng.loadModel ((env "WHISPER_MODEL").getD "small") "cpu" "int8"
      = .ok m)
    (hrun : eng.transcribeAudio m audio_path 5 = .ok (segs, info)) :
    (transcribe eng env audio_path).1
      = .ok (joinSpace (segs.map (fun s => pyStrip s.text))) :=
  transcribe_fst_of_ok eng env audio_path m segs info hload hrun

/-- Claim C1 witness: at the engine segments "  hello " and "world  " the
result is exactly "hello world". -/
theorem C1_transcribe_joins_stripped_witness :
    (transcribe (constEngine [⟨"  hello "⟩, ⟨"world  "⟩]) emptyEnv
      "sample.wav").1 = .ok "hello world" := by
  have h := C1_transcribe_joins_stripped
    (constEngine [⟨"  hello "⟩, ⟨"world  "⟩]) emptyEnv "sample.wav" ()
    [⟨"  hello "⟩, ⟨"world  "⟩] () rfl rfl
  rw [h]
  rfl

/-- Claim C2 counterexample: an engine that returns one segment whose text is
entirely whitespace makes `transcribe` return the empty string although the
segment count is not zero, so the result can be empty with a nonzero number
of segments. -/
theorem C2_counterexample :
    (transcribe (constEngine [⟨"   "⟩]) emptyEnv "a.wav").1 = .ok ""
      ∧ [Segment.mk "   "].length ≠ 0 :=
  ⟨rfl, by decide⟩

/-- Claim C2 amended: the string returned by `transcribe` is empty only if
the engine returned zero segments, or exactly one segment whose text strips
to the empty string (is entirely whitespace). -/
theorem C2_empty_result_amended {ε μ ι : Type} (eng : Engine ε μ ι)
    (env : String → Option String) (audio_path : String) (m : μ)
    (segs : List Segment) (info : ι)
    (hload : eng.loadModel ((env "WHISPER_MODEL").getD "small") "cpu" "int8"
      = .ok m)
    (hrun : eng.transcribeAudio m audio_path 5 = .ok (segs, info))
    (hempty : (transcribe eng env audio_path).1 = .ok "") :
    segs = [] ∨ ∃ s, segs = [s] ∧ pyStrip s.text = "" := by
  have hval := transcribe_fst_of_ok eng env audio_path m segs info hload hrun
  rw [hval] at hempty
  have hjoin : joinSpace (segs.map (fun s => pyStrip s.text)) = "" := by
    exact Except.ok.inj hempty
  rcases joinSpace_eq_empty hjoin with hnil | hone
  · left
    exact List.map_eq_nil_iff.mp hnil
  · right
    cases segs with
    | nil => simp at hone
    | cons s rest =>
        simp only [List.map_cons, List.cons.injEq, List.map_eq_nil_iff]
          at hone
        exact ⟨s, by rw [hone.2], hone.1⟩

/-- Claim C2 amended witness: an engine returning no segments that yields the
empty result indeed falls in the zero-segments case. -/
theorem C2_empty_result_amended_witness :
    ([] : List Segment) = []
      ∨ ∃ s, ([] : List Segment) = [s] ∧ pyStrip s.text = "" :=
  C2_empty_result_amended (constEngine []) emptyEnv "a.wav" () [] ()
    rfl rfl rfl

/-- Claim C3: with no CLI argument, the program prints exactly the usage line
to stderr, exits with code 1, writes nothing to stdout, and makes no engine
call. -/
theorem C3_no_args_usage {ε μ ι : Type} (eng : Engine ε μ ι)
    (env : String → Option String) (fs : String → Option FsEntry)
    (prog : String) :
    mainEntry eng env fs [prog]
      = ⟨.exited 1, [], ["Usage: transcribe.py <audio_file>"], []⟩ := rfl

/-- Claim C4: with a single CLI argument naming a nonexistent path `p`, the
program prints exactly "File not found: " followed by `p` to stderr, exits
with code 1, and writes nothing to stdout. -/
theorem C4_file_not_found {ε μ ι : Type} (eng : Engine ε μ ι)
    (env : String → Option String) (fs : String → Option FsEntry)
    (prog p : String) (habsent : fs p = none) :
    mainEntry eng env fs [prog, p]
      = ⟨.exited 1, [], ["File not found: " ++ p], []⟩ := by
  simp [mainEntry, osPathExists, habsent]

/-- Claim C4 witness: the missing path "missing.wav" produces exactly the
message "File not found: missing.wav", exit code 1, and empty stdout. -/
theorem C4_file_not_found_witness :
    mainEntry (constEngine []) emptyEnv noFs ["transcribe.py", "missing.wav"]
      = ⟨.exited 1, [], ["File not found: missing.wav"], []⟩ :=
  (C4_file_not_found (constEngine []) emptyEnv noFs "transcribe.py"
    "missing.wav" rfl).trans rfl

/-- Claim C5: on every call, `transcribe` first requests the model of the
size tier read from WHISPER_MODEL ("small" when the variable is unset), on
cpu with int8 weights; whenever the load succeeds a transcription request
for the audio path is made, and every transcription request it makes uses
beam width exactly 5. -/
theorem C5_engine_configuration {ε μ ι : Type} (eng : Engine ε μ ι)
    (env : String → Option String) (audio_path : String) :
    ((transcribe eng env audio_path).2).head?
        = some (.loadModel ((env "WHISPER_MODEL").getD "small") "cpu" "int8")
    ∧ (env "WHISPER_MODEL" = none →
        ((transcribe eng env audio_path).2).head?
          = some (.loadModel "small" "cpu" "int8"))
    ∧ (∀ m, eng.loadModel ((env "WHISPER_MODEL").getD "small") "cpu" "int8"
          = .ok m →
        EngineCall.transcribeAudio audio_path 5
          ∈ (transcribe eng env audio_path).2)
    ∧ (∀ p b, EngineCall.transcribeAudio p b
          ∈ (transcribe eng env audio_path).2 →
        p = audio_path ∧ b = 5) := by
  have hc := transcribe_calls_eq eng env audio_path
  refine ⟨?_, ?_, ?_, ?_⟩
  · rw [hc]
    rfl
  · intro hnone
    rw [hc, hnone]
    rfl
  · intro m hm
    rw [hc, hm]
    simp
  · intro p b hmem
    rw [hc] at hmem
    cases hL : eng.loadModel ((env "WHISPER_MODEL").getD "small") "cpu"
        "int8" with
    | error e =>
        rw [hL] at hmem
        simp at hmem
    | ok mdl =>
        rw [hL] at hmem
        simp only [List.mem_cons, List.not_mem_nil, or_false] at hmem
        rcases hmem with hbad | hgood
        · exact absurd hbad (by simp)
        · have h1 : p = audio_path ∧ b = 5 := by
            injection hgood with h1 h2
            exact ⟨h1, h2⟩
          exact h1

/-- Claim C5 witness: with the environment variable unset, the first engine
call loads the "small" model on cpu with int8, and a transcription request
with beam width 5 for the given path is made. -/
theorem C5_engine_configuration_witness :
    ((transcribe (constEngine []) emptyEnv "a.wav").2).head?
        = some (.loadModel "small" "cpu" "int8")
      ∧ EngineCall.transcribeAudio "a.wav" 5
          ∈ (transcribe (constEngine []) emptyEnv "a.wav").2 := by
  have h := C5_engine_configuration (constEngine []) emptyEnv "a.wav"
  exact ⟨h.2.1 rfl, h.2.2.1 () rfl⟩

/-- Claim C6 counterexample: an engine segment whose text keeps an interior
newline reaches stdout verbatim, so the printed transcript contains a
newline besides the final one, although the program exits 0. -/
theorem C6_counterexample :
    (mainEntry (constEngine [⟨"a\nb"⟩]) emptyEnv (fun _ => some .file)
        ["transcribe.py", "sample.wav"]).outcome = .exited 0
      ∧ (mainEntry (constEngine [⟨"a\nb"⟩]) emptyEnv (fun _ => some .file)
          ["transcribe.py", "sample.wav"]).stdoutLines = ["a\nb"]
      ∧ '\n' ∈ "a\nb".data :=
  ⟨rfl, rfl, by decide⟩

/-- Claim C6 amended: on success the program exits 0 and stdout is exactly
the one printed transcript line; and whenever no segment text retains a
newline after stripping, the transcript contains no newline character, the
only newline being the one appended by printing. -/
theorem C6_success_single_line {ε μ ι : Type} (eng : Engine ε μ ι)
    (env : String → Option String) (fs : String → Option FsEntry)
    (prog p : String) (rest : List String) (m : μ)
    (segs : List Segment) (info : ι)
    (hex : (fs p).isSome = true)
    (hload : eng.loadModel ((env "WHISPER_MODEL").getD "small") "cpu" "int8"
      = .ok m)
    (hrun : eng.transcribeAudio m p 5 = .ok (segs, info)) :
    (mainEntry eng env fs (prog :: p :: rest)).outcome = .exited 0
    ∧ (mainEntry eng env fs (prog :: p :: rest)).stdoutLines
        = [joinSpace (segs.map (fun s => pyStrip s.text))]
    ∧ ((∀ s ∈ segs, '\n' ∉ (pyStrip s.text).data) →
        '\n' ∉ (joinSpace (segs.map (fun s => pyStrip s.text))).data) := by
  have hpair : transcribe eng env p
      = (.ok (joinSpace (segs.map (fun s => pyStrip s.text))),
         (transcribe eng env p).2) :=
    Prod.ext (transcribe_fst_of_ok eng env p m segs info hload hrun) rfl
  have hmain : mainEntry eng env fs (prog :: p :: rest)
      = ⟨.exited 0, [joinSpace (segs.map (fun s => pyStrip s.text))], [],
         (transcribe eng env p).2⟩ := by
    have h0 : mainEntry eng env fs (prog :: p :: rest)
        = match transcribe eng env p with
          | (.ok result, calls) => ⟨.exited 0, [result], [], calls⟩
          | (.error e, calls) => ⟨.uncaught e, [], [], calls⟩ := by
      simp [mainEntry, osPathExists, hex]
    rw [h0, hpair]
  refine ⟨?_, ?_, ?_⟩
  · rw [hmain]
  · rw [hmain]
  · intro hns
    refine joinSpace_no_char '\n' (by decide) _ ?_
    intro x hx
    rcases List.mem_map.mp hx with ⟨s, hs, hxs⟩
    rw [← hxs]
    exact hns s hs

/-- Claim C6 amended witness: the three-segment transcript "Hi", "there",
"friend" prints the single line "Hi there friend" and exits 0. -/
theorem C6_success_single_line_witness :
    (mainEntry (constEngine [⟨"Hi"⟩, ⟨"there"⟩, ⟨"friend"⟩]) emptyEnv
        (fun _ => some .file) ["transcribe.py", "sample.wav"]).outcome
        = .exited 0
      ∧ (mainEntry (constEngine [⟨"Hi"⟩, ⟨"there"⟩, ⟨"friend"⟩]) emptyEnv
          (fun _ => some .file) ["transcribe.py", "sample.wav"]).stdoutLines
          = ["Hi there friend"]
      ∧ '\n' ∉ "Hi there friend".data := by
  have h := C6_success_single_line
    (constEngine [⟨"Hi"⟩, ⟨"there"⟩, ⟨"friend"⟩]) emptyEnv
    (fun _ => some .file) "transcribe.py" "sample.wav" [] ()
    [⟨"Hi"⟩, ⟨"there"⟩, ⟨"friend"⟩] () rfl rfl rfl
  refine ⟨h.1, ?_, ?_⟩
  · rw [h.2.1]
    rfl
  · exact h.2.2 (by decide)

/-- Claim C7: `transcribe` fails exactly when the engine fails, with the
same error value: it returns error `e` iff the model load failed with `e`,
or the load succeeded and the transcription call failed with `e`. -/
theorem C7_error_propagation {ε μ ι : Type} (eng : Engine ε μ ι)
    (env : String → Option String) (audio_path : String) (e : ε) :
    (transcribe eng env audio_path).1 = .error e
      ↔ (eng.loadModel ((env "WHISPER_MODEL").getD "small") "cpu" "int8"
            = .error e
         ∨ ∃ m, eng.loadModel ((env "WHISPER_MODEL").getD "small") "cpu"
              "int8" = .ok m
            ∧ eng.transcribeAudio m audio_path 5 = .error e) := by
  simp only [transcribe]
  cases hL : eng.loadModel ((env "WHISPER_MODEL").getD "small") "cpu" "int8"
    with
  | error e0 =>
      dsimp only
      constructor
      · intro h
        injection h with he
        exact Or.inl (by rw [he])
      · intro h
        rcases h with h | ⟨m, hm, _⟩
        · injection h with he
          rw [he]
        · cases hm
  | ok mdl =>
      dsimp only
      cases hT : eng.transcribeAudio mdl audio_path 5 with
      | error e1 =>
          dsimp only
          constructor
          · intro h
            injection h with he
            exact Or.inr ⟨mdl, rfl, by rw [hT, he]⟩
          · intro h
            rcases h with h | ⟨m, hm, hr⟩
            · cases h
            · cases hm
              rw [hT] at hr
              injection hr with he
              rw [he]
      | ok v =>
          cases v with
          | mk segs info =>
              dsimp only
              constructor
              · intro h
                cases h
              · intro h
                rcases h with h | ⟨m, hm, hr⟩
                · cases h
                · cases hm
                  rw [hT] at hr
                  cases hr

/-- Claim C7 witness: an engine whose model load raises "boom" makes
`transcribe` fail with exactly that error. -/
theorem C7_error_propagation_witness :
    (transcribe (failingEngine "boom") emptyEnv "a.wav").1 = .error "boom" :=
  (C7_error_propagation (failingEngine "boom") emptyEnv "a.wav" "boom").mpr
    (Or.inl rfl)

/-- Claim C8: the engine is never invoked on an error path: with fewer than
two argv entries, and likewise when the named path does not exist, the run
records no engine call at all. -/
theorem C8_no_engine_on_error_paths {ε μ ι : Type} (eng : Engine ε μ ι)
    (env : String → Option String) (fs : String → Option FsEntry) :
    (∀ argv : List String, argv.length < 2 →
        (mainEntry eng env fs argv).engineCalls = [])
    ∧ (∀ prog p rest, fs p = none →
        (mainEntry eng env fs (prog :: p :: rest)).engineCalls = []) := by
  constructor
  · intro argv hlen
    match argv with
    | [] => rfl
    | [a] => rfl
    | a :: b :: rest =>
        exfalso
        simp [List.length_cons] at hlen
        omega
  · intro prog p rest habsent
    simp [mainEntry, osPathExists, habsent]

/-- Claim C8 witness: the usage branch and the missing-file branch both
record no engine call. -/
theorem C8_no_engine_on_error_paths_witness :
    (mainEntry (constEngine []) emptyEnv noFs ["transcribe.py"]).engineCalls
        = []
      ∧ (mainEntry (constEngine []) emptyEnv noFs
          ["transcribe.py", "missing.wav"]).engineCalls = [] := by
  have h := C8_no_engine_on_error_paths (constEngine []) emptyEnv noFs
  exact ⟨h.1 ["transcribe.py"] (by decide),
         h.2 "transcribe.py" "missing.wav" [] rfl⟩

/-- Claim C9: extra CLI arguments are silently ignored: for any additional
arguments the run is identical to the run on the first argument alone, so
no usage error is raised for them. -/
theorem C9_extra_args_ignored {ε μ ι : Type} (eng : Engine ε μ ι)
    (env : String → Option String) (fs : String → Option FsEntry)
    (prog p : String) (rest : List String) :
    mainEntry eng env fs (prog :: p :: rest)
      = mainEntry eng env fs [prog, p] := rfl

/-- Claim C10: the file check tests only existence: the "File not found"
message appears exactly when the path names no entry at all, and an
existing directory passes the check, the run proceeding to model
invocation. -/
theorem C10_existence_check_only {ε μ ι : Type} (eng : Engine ε μ ι)
    (env : String → Option String) (fs : String → Option FsEntry)
    (prog p : String) (rest : List String) :
    ((mainEntry eng env fs (prog :: p :: rest)).stderrLines
        = ["File not found: " ++ p] ↔ fs p = none)
    ∧ (fs p = some .directory →
        ((mainEntry eng env fs (prog :: p :: rest)).engineCalls).head?
          = some (.loadModel ((env "WHISPER_MODEL").getD "small") "cpu"
              "int8")) := by
  constructor
  · constructor
    · intro hmsg
      by_contra hne
      have hex : (fs p).isSome = true := Option.ne_none_iff_isSome.mp hne
      have hbranch := mainEntry_exists_branch eng env fs prog p rest hex
      rw [hbranch.1] at hmsg
      simp at hmsg
    · intro hnone
      simp [mainEntry, osPathExists, hnone]
  · intro hdir
    have hex : (fs p).isSome = true := by
      rw [hdir]
      rfl
    have hbranch := mainEntry_exists_branch eng env fs prog p rest hex
    rw [hbranch.2, transcribe_calls_eq]
    rfl

/-- Claim C10 witness: a path naming an existing directory passes the check
and the run proceeds to the model-load call; its stderr holds no
"File not found" message. -/
theorem C10_existence_check_only_witness :
    ((mainEntry (constEngine []) emptyEnv (dirAt "outdir")
        ["transcribe.py", "outdir"]).engineCalls).head?
        = some (.loadModel "small" "cpu" "int8")
      ∧ ¬ (mainEntry (constEngine []) emptyEnv (dirAt "outdir")
          ["transcribe.py", "outdir"]).stderrLines
          = ["File not found: " ++ "outdir"] := by
  have h := C10_existence_check_only (constEngine []) emptyEnv
    (dirAt "outdir") "transcribe.py" "outdir" []
  constructor
  · exact h.2 (by simp [dirAt])
  · intro hc
    have hn := h.1.mp hc
    simp [dirAt] at hn

end Clawdify
